import Mathlib

/-- Search status enum of the solver core (SearchStatus.hpp). -/
inductive SearchStatus where
  | UNINITIALIZED
  | INITIAL
  | OUT_OF_STEPS
  | FINISHED
  | ERROR
deriving DecidableEq, Repr

/-- One simulated transition, mirroring Model::StepResult.  Actions,
observations and states are opaque polymorphic values in the source; they are
embedded as natural-number codes, with a null action as none.  Rewards
(C++ double) are embedded as rationals. -/
structure StepResult where
  action : Option Nat
  transitionParameters : Option Nat
  observation : Nat
  reward : Rat
  nextState : Nat
  isTerminal : Bool
deriving DecidableEq, Repr

/-- The default-constructed Model::StepResult, carrying a null action. -/
def nullStepResult : StepResult :=
  { action := none, transitionParameters := none, observation := 0,
    reward := 0, nextState := 0, isTerminal := false }

/-- Modelled from the spec: ObservationMapping (declared in
mappings/ObservationMapping.hpp, implementation not under src/) maps distinct
observations to BeliefNode children; getBelief is a pure lookup and
createBelief allocates a fresh belief node for the observation. -/
structure ObservationMapping where
  entries : List (Nat × Nat)
  nextId : Nat
deriving DecidableEq, Repr

/-- Modelled from the spec: pure lookup of the child belief for an
observation; none plays the role of a null pointer. -/
def ObservationMapping.getBelief (m : ObservationMapping) (obs : Nat) : Option Nat :=
  m.entries.lookup obs

/-- Modelled from the spec: allocate a fresh belief node for the observation
and record it in the mapping. -/
def ObservationMapping.createBelief (m : ObservationMapping) (obs : Nat) :
    Nat × ObservationMapping :=
  (m.nextId, ⟨(obs, m.nextId) :: m.entries, m.nextId + 1⟩)

/-- ActionNode (ActionNode.cpp): per-(belief, action) statistics plus the
owned observation mapping.  nParticles_ is a C++ long, embedded as Int;
the two Q-values are C++ doubles, embedded as rationals. -/
structure ActionNode where
  nParticles_ : Int
  totalQValue_ : Rat
  meanQValue_ : Rat
  obsMap_ : ObservationMapping
deriving DecidableEq, Repr

/-- ActionNode::ActionNode(mapping): all statistics start at zero. -/
def ActionNode.init (m : ObservationMapping) : ActionNode :=
  { nParticles_ := 0, totalQValue_ := 0, meanQValue_ := 0, obsMap_ := m }

/-- ActionNode::updateQValue(double increase) - ActionNode.cpp lines 29-36. -/
def ActionNode.updateQValue (node : ActionNode) (increase : Rat) : ActionNode :=
  let total := node.totalQValue_ + increase
  { node with
    totalQValue_ := total,
    meanQValue_ := if 0 < node.nParticles_ then total / (node.nParticles_ : Rat) else 0 }

/-- ActionNode::updateQValue(double increase, long deltaNParticles) -
ActionNode.cpp lines 38-42: adjust nParticles_ first, then do the value
update. -/
def ActionNode.updateQValueDelta (node : ActionNode) (increase : Rat)
    (deltaNParticles : Int) : ActionNode :=
  ActionNode.updateQValue
    { node with nParticles_ := node.nParticles_ + deltaNParticles } increase

/-- ActionNode::getChild(obs) - pure lookup through the observation
mapping. -/
def ActionNode.getChild (node : ActionNode) (obs : Nat) : Option Nat :=
  node.obsMap_.getBelief obs

/-- ActionNode::createOrGetChild(obs) - ActionNode.cpp lines 64-72: look the
child up, create it only if absent, and report whether creation occurred. -/
def ActionNode.createOrGetChild (node : ActionNode) (obs : Nat) :
    (Nat × Bool) × ActionNode :=
  match node.getChild obs with
  | some beliefChild => ((beliefChild, false), node)
  | none =>
    let created := node.obsMap_.createBelief obs
    ((created.1, true), { node with obsMap_ := created.2 })

/-- One call to either overload of ActionNode::updateQValue. -/
inductive QCall where
  | one (increase : Rat)
  | two (increase : Rat) (deltaNParticles : Int)
deriving DecidableEq, Repr

/-- Apply a single updateQValue call to an ActionNode. -/
def applyQCall (node : ActionNode) : QCall → ActionNode
  | QCall.one increase => node.updateQValue increase
  | QCall.two increase delta => node.updateQValueDelta increase delta

/-- Apply a sequence of updateQValue calls, oldest first. -/
def applyQCalls (node : ActionNode) : List QCall → ActionNode
  | [] => node
  | c :: rest => applyQCalls (applyQCall node c) rest

/-- The mean/total/count consistency invariant of the spec: the mean equals
total divided by count when the count is positive, and is exactly 0 when the
count is 0. -/
def qValueInvariant (node : ActionNode) : Prop :=
  (0 < node.nParticles_ →
    node.meanQValue_ = node.totalQValue_ / (node.nParticles_ : Rat)) ∧
  (node.nParticles_ = 0 → node.meanQValue_ = 0)

instance (node : ActionNode) : Decidable (qValueInvariant node) := by
  unfold qValueInvariant
  infer_instance

/-- The total of the nParticles_ adjustments made by a call sequence. -/
def sumDeltas (calls : List QCall) : Int :=
  (calls.map fun c =>
    match c with
    | QCall.one _ => (0 : Int)
    | QCall.two _ d => d).sum

/-- Modelled from the spec: ActionMappingEntry (external leaf) records
per-action statistics; its update(deltaNVisits, deltaTotalQ) returns whether
the action's q value changed.  Only the returned flag is relevant to the
delegation contract, so the entry is embedded as its update function. -/
structure ActionMappingEntry where
  update : Int → Rat → Bool

/-- ActionMapping (ActionMapping.hpp): the base contract is embedded by the
one piece of behaviour it fixes, the lookup of an entry for an action
(getEntry may return a null pointer, embedded as none). -/
structure ActionMapping where
  getEntry : Nat → Option ActionMappingEntry

/-- ActionMapping::update default implementation - ActionMapping.hpp lines
77-79: route directly into getEntry(action)->update(...).  A missing entry
means the C++ dereferences a null pointer; that is embedded as none. -/
def ActionMapping.update (m : ActionMapping) (action : Nat) (deltaNVisits : Int)
    (deltaTotalQ : Rat) : Option Bool :=
  match m.getEntry action with
  | none => none
  | some entry => some (entry.update deltaNVisits deltaTotalQ)

/-- Modelled from the spec: a concrete StepGenerator stage (implementations
are not under src/).  A stage is a stateful producer of one simulated
transition at a time: it yields its listed steps in order and afterwards
declines with the null-action result; on exhaustion it may set the shared
search status (for example a final rollout stage marks FINISHED on natural
step-exhaustion, per the spec's status machine), encoded by exhaustStatus. -/
structure StageGen where
  steps : List StepResult
  exhaustStatus : Option SearchStatus

/-- Modelled from the spec: one getStep call on a stage generator. -/
def StageGen.step (g : StageGen) (st : SearchStatus) :
    StepResult × StageGen × SearchStatus :=
  match g.steps with
  | [] => (nullStepResult, g, g.exhaustStatus.getD st)
  | r :: rest => (r, { g with steps := rest }, st)

/-- Modelled from the spec: a StepGeneratorFactory builds a stage generator
for a simulation context (the entry/state/data triple, embedded as an opaque
code) and may set the shared search status during construction. -/
def StepGeneratorFactory : Type :=
  Nat → SearchStatus → StageGen × SearchStatus

/-- StagedStepGenerator (search_interface.cpp): the currently active stage
generator plus the factories not yet instantiated.  The C++ pair of the full
factory vector and an iterator into it is embedded as the list of remaining
factories; the active generator is null (none) once the staged generator has
signalled that simulation must stop. -/
structure StagedStepGenerator where
  remaining : List StepGeneratorFactory
  generator_ : Option StageGen

/-- StagedStepGenerator constructor - search_interface.cpp lines 35-44: it
unconditionally dereferences the first factory (there is no empty-list
branch), so an empty factory list is undefined behaviour, embedded as none;
otherwise the first stage's generator is built eagerly and the cursor is left
on the second factory. -/
def StagedStepGenerator.construct (factories : List StepGeneratorFactory)
    (ctx : Nat) (st : SearchStatus) :
    Option (StagedStepGenerator × SearchStatus) :=
  match factories with
  | [] => none
  | f :: rest =>
    let made := f ctx st
    some ({ remaining := rest, generator_ := some made.1 }, made.2)

/-- The while loop of StagedStepGenerator::getStep - search_interface.cpp
lines 49-58: while the result's action is null, stop (clearing the active
generator) if the status is FINISHED or no factories remain, else instantiate
the next stage and retry. -/
def stagedWhile (ctx : Nat) :
    List StepGeneratorFactory → StepResult → StageGen → SearchStatus →
    StepResult × StagedStepGenerator × SearchStatus
  | remaining, result, g, st =>
    match result.action with
    | some _ => (result, { remaining := remaining, generator_ := some g }, st)
    | none =>
      if st = SearchStatus.FINISHED then
        (result, { remaining := remaining, generator_ := none }, st)
      else
        match remaining with
        | [] => (result, { remaining := [], generator_ := none }, st)
        | f :: rest =>
          let made := f ctx st
          let stepped := made.1.step made.2
          stagedWhile ctx rest stepped.1 stepped.2.1 stepped.2.2

/-- StagedStepGenerator::getStep - search_interface.cpp lines 46-60: delegate
to the active generator, then run the stage-switching loop.  A cleared
(null) active generator would be dereferenced by the C++, embedded as
none. -/
def StagedStepGenerator.getStep (s : StagedStepGenerator) (ctx : Nat)
    (st : SearchStatus) :
    Option (StepResult × StagedStepGenerator × SearchStatus) :=
  match s.generator_ with
  | none => none
  | some g =>
    let stepped := g.step st
    some (stagedWhile ctx s.remaining stepped.1 stepped.2.1 stepped.2.2)

/-- HistoryEntry (consumed external shape): one step of a simulated
trajectory.  The owned state is embedded by its id in the state pool; the
action, observation and transition parameters are null (none) until the
search strategy fills them in; beliefNode is the non-owning back-reference
set by registerNode. -/
structure HistoryEntry where
  stateId : Nat
  action : Option Nat
  observation : Option Nat
  transitionParameters : Option Nat
  immediateReward : Rat
  beliefNode : Nat
deriving DecidableEq, Repr

/-- Modelled from the spec: the belief tree (the solver's policy, not under
src/).  Belief nodes are identified by ids; nodes records each node's depth
and edges records the (parent, action, observation) → child relation, with
at most one child per triple. -/
structure BeliefTree where
  nextId : Nat
  nodes : List (Nat × Nat)
  edges : List ((Nat × Nat × Nat) × Nat)
deriving DecidableEq, Repr

/-- BeliefNode::getDepth for a node of the tree (0 for an unknown id). -/
def BeliefTree.getDepth (t : BeliefTree) (b : Nat) : Nat :=
  (t.nodes.lookup b).getD 0

/-- Modelled from the spec: BeliefTree::createOrGetChild - an upsert, not a
plain lookup; a new child is created exactly once per distinct
(parent, action, observation) triple, at depth one more than its parent. -/
def BeliefTree.createOrGetChild (t : BeliefTree) (b a o : Nat) :
    Nat × BeliefTree :=
  match t.edges.lookup (b, a, o) with
  | some child => (child, t)
  | none =>
    (t.nextId,
     { nextId := t.nextId + 1,
       nodes := (t.nextId, t.getDepth b + 1) :: t.nodes,
       edges := ((b, a, o), t.nextId) :: t.edges })

/-- Modelled from the spec: StatePool::createOrGetInfo - deduplicating
world-state storage; the returned StateInfo is embedded as the state id. -/
def createOrGetInfo (pool : List Nat) (s : Nat) : Nat × List Nat :=
  if s ∈ pool then (s, pool) else (s, s :: pool)

/-- The external mutable world touched by extendSequence: the model's
terminal test, each belief node's opaque historical data, the belief tree
(policy) and the state pool. -/
structure Env where
  isTerminal : Nat → Bool
  dataFn : Nat → Nat
  tree : BeliefTree
  pool : List Nat

/-- One call made by extendSequence to the solver's statistic-update entry
points, or one evaluation of the pluggable heuristic.  estimate records
updateEstimate(belief, rewardDelta, visitDelta); immediate records
updateImmediate(belief, action, observation, reward, visitDelta);
heuristicEval records a heuristic evaluation at the frontier belief. -/
inductive UpdateEvent where
  | estimate (belief : Nat) (rewardDelta : Rat) (visitDelta : Int)
  | immediate (belief : Nat) (action : Nat) (observation : Nat)
      (reward : Rat) (visitDelta : Int)
  | heuristicEval (belief : Nat) (value : Rat)
deriving DecidableEq, Repr

/-- A BasicSearchStrategy together with the abstract generator protocol it
drives: the factory (createGenerator receives the shared status and the
entry/state/data context and returns the generator plus the status it set),
the generator's getStep, and the pluggable heuristic. -/
structure Strategy (G : Type) where
  createGenerator : SearchStatus → HistoryEntry → Nat → Nat → G × SearchStatus
  getStep : G → HistoryEntry → Nat → Nat → SearchStatus →
      StepResult × G × SearchStatus
  heuristic : HistoryEntry → Nat → Nat → Rat

/-- The mutable state of one extendSequence call: the environment, the
already-closed history entries, the frontier entry (the sequence is
pastEntries followed by currentEntry), the current belief node, the
generator, the shared status, the isFirst flag and the log of statistic
updates and heuristic evaluations made so far. -/
structure LoopState (G : Type) where
  env : Env
  pastEntries : List HistoryEntry
  currentEntry : HistoryEntry
  currentNode : Nat
  gen : G
  status : SearchStatus
  isFirst : Bool
  events : List UpdateEvent

/-- Outcome of one iteration of the extendSequence while loop: continue
looping, break to the post-loop handling, or return immediately (the
terminal-step early return). -/
inductive IterResult (G : Type) where
  | next (s : LoopState G)
  | fall (s : LoopState G)
  | ret (s : LoopState G)

/-- The loop state carried by an iteration outcome. -/
def IterResult.state {G : Type} : IterResult G → LoopState G
  | IterResult.next s => s
  | IterResult.fall s => s
  | IterResult.ret s => s

/-- One iteration of the while loop of BasicSearchStrategy::extendSequence -
search_interface.cpp lines 93-136: depth cutoff, generator step, null-action
break, continuation credit on non-first steps, recording the step into the
frontier entry, child upsert, immediate update, advance, new history entry,
and the terminal-step early return. -/
def loopIter {G : Type} (strat : Strategy G) (maximumDepth : Int)
    (s : LoopState G) : IterResult G :=
  if maximumDepth ≤ (s.env.tree.getDepth s.currentNode : Int) then
    IterResult.fall { s with status := SearchStatus.OUT_OF_STEPS }
  else
    let stepped := strat.getStep s.gen s.currentEntry s.currentEntry.stateId
        (s.env.dataFn s.currentNode) s.status
    let result := stepped.1
    match result.action with
    | none =>
      IterResult.fall { s with gen := stepped.2.1, status := stepped.2.2 }
    | some a =>
      let contEvents : List UpdateEvent :=
        if s.isFirst then [] else [UpdateEvent.estimate s.currentNode 0 1]
      let entryDone : HistoryEntry :=
        { s.currentEntry with
          immediateReward := result.reward,
          action := some a,
          transitionParameters := result.transitionParameters,
          observation := some result.observation }
      let made := s.env.tree.createOrGetChild s.currentNode a result.observation
      let pooled := createOrGetInfo s.env.pool result.nextState
      let newEntry : HistoryEntry :=
        { stateId := pooled.1, action := none, observation := none,
          transitionParameters := none, immediateReward := 0,
          beliefNode := made.1 }
      let s2 : LoopState G :=
        { env := { s.env with tree := made.2, pool := pooled.2 },
          pastEntries := s.pastEntries ++ [entryDone],
          currentEntry := newEntry,
          currentNode := made.1,
          gen := stepped.2.1,
          status := stepped.2.2,
          isFirst := false,
          events := s.events ++ contEvents ++
            [UpdateEvent.immediate s.currentNode a result.observation
              result.reward 1] }
      if result.isTerminal then
        IterResult.ret { s2 with status := SearchStatus.FINISHED }
      else
        IterResult.next s2

/-- The post-loop handling of extendSequence - search_interface.cpp lines
139-156: on OUT_OF_STEPS evaluate the heuristic at the frontier, store it as
the frontier entry's immediate reward, propagate it as a value-only
updateEstimate and resolve to FINISHED; every other status is returned
unchanged (the remaining branches only emit diagnostic messages). -/
def postLoop {G : Type} (strat : Strategy G) (s : LoopState G) : LoopState G :=
  if s.status = SearchStatus.OUT_OF_STEPS then
    let h := strat.heuristic s.currentEntry s.currentEntry.stateId
        (s.env.dataFn s.currentNode)
    { s with
      currentEntry := { s.currentEntry with immediateReward := h },
      events := s.events ++
        [UpdateEvent.heuristicEval s.currentNode h,
         UpdateEvent.estimate s.currentNode h 0],
      status := SearchStatus.FINISHED }
  else s

/-- The while loop of extendSequence, run with explicit fuel.  Each
successful step moves to a child belief, so along the tree discipline of the
spec the depth strictly increases and extendSequence always supplies enough
fuel; the fuel-exhausted case returns the state unchanged and is never
reached in any run considered here. -/
def extendLoop {G : Type} (strat : Strategy G) (maximumDepth : Int) :
    Nat → LoopState G → LoopState G
  | 0, s => s
  | Nat.succ fuel, s =>
    match loopIter strat maximumDepth s with
    | IterResult.next s2 => extendLoop strat maximumDepth fuel s2
    | IterResult.fall s2 => postLoop strat s2
    | IterResult.ret s2 => s2

/-- BasicSearchStrategy::extendSequence - search_interface.cpp lines 70-157.
The nonempty history sequence is passed structurally as its closed entries
(seqInit) plus its last entry (the frontier); the result is the returned
status, the final environment, the final sequence and the log of
statistic-update calls and heuristic evaluations. -/
def extendSequence {G : Type} (strat : Strategy G) (env : Env)
    (seqInit : List HistoryEntry) (frontier : HistoryEntry)
    (maximumDepth : Int) :
    SearchStatus × Env × List HistoryEntry × List UpdateEvent :=
  let currentNode := frontier.beliefNode
  let made := strat.createGenerator SearchStatus.UNINITIALIZED frontier
      frontier.stateId (env.dataFn currentNode)
  if made.2 = SearchStatus.UNINITIALIZED then
    (made.2, env, seqInit ++ [frontier], [])
  else if env.isTerminal frontier.stateId then
    (SearchStatus.ERROR, env, seqInit ++ [frontier], [])
  else if frontier.action.isSome then
    (SearchStatus.ERROR, env, seqInit ++ [frontier], [])
  else
    let fuel := (maximumDepth - (env.tree.getDepth currentNode : Int)).toNat + 1
    let s0 : LoopState G :=
      { env := env, pastEntries := seqInit, currentEntry := frontier,
        currentNode := currentNode, gen := made.1, status := made.2,
        isFirst := true, events := [] }
    let sEnd := extendLoop strat maximumDepth fuel s0
    (sEnd.status, sEnd.env, sEnd.pastEntries ++ [sEnd.currentEntry], sEnd.events)

theorem qValueInvariant_updateQValue (node : ActionNode) (inc : Rat) :
    qValueInvariant (node.updateQValue inc) := by
  constructor
  · intro h
    simp only [ActionNode.updateQValue] at h ⊢
    rw [if_pos h]
  · intro h
    simp only [ActionNode.updateQValue] at h ⊢
    rw [if_neg]
    omega

theorem qValueInvariant_applyQCall (node : ActionNode) (c : QCall) :
    qValueInvariant (applyQCall node c) := by
  cases c with
  | one inc => exact qValueInvariant_updateQValue node inc
  | two inc d => exact qValueInvariant_updateQValue _ inc

theorem qValueInvariant_applyQCalls (node : ActionNode) (calls : List QCall)
    (h : qValueInvariant node) : qValueInvariant (applyQCalls node calls) := by
  induction calls generalizing node with
  | nil => exact h
  | cons c rest ih => exact ih _ (qValueInvariant_applyQCall node c)

/-- Claim C1: for every ActionNode and every sequence of updateQValue calls,
after every call meanQValue_ equals totalQValue_ / nParticles_ whenever
nParticles_ > 0 and equals exactly 0 when nParticles_ == 0; and in the
two-argument overload nParticles_ is adjusted by deltaNParticles first, so
the recomputed mean reflects the post-adjustment particle count. -/
theorem C1_meanQValue_consistency :
    (∀ (m : ObservationMapping) (calls : List QCall),
      qValueInvariant (applyQCalls (ActionNode.init m) calls))
    ∧ (∀ (node : ActionNode) (inc : Rat) (d : Int),
      (node.updateQValueDelta inc d).nParticles_ = node.nParticles_ + d
      ∧ (0 < node.nParticles_ + d →
          (node.updateQValueDelta inc d).meanQValue_ =
            (node.totalQValue_ + inc) / ((node.nParticles_ + d : Int) : Rat))
      ∧ (node.nParticles_ + d ≤ 0 →
          (node.updateQValueDelta inc d).meanQValue_ = 0)) := by
  constructor
  · intro m calls
    refine qValueInvariant_applyQCalls _ _ ?_
    constructor
    · intro h
      simp [ActionNode.init] at h
    · intro _
      rfl
  · intro node inc d
    refine ⟨rfl, ?_, ?_⟩
    · intro h
      simp only [ActionNode.updateQValueDelta, ActionNode.updateQValue]
      rw [if_pos h]
    · intro h
      simp only [ActionNode.updateQValueDelta, ActionNode.updateQValue]
      rw [if_neg]
      omega

/-- Witness for C1: a concrete call sequence with a positive particle count,
and a concrete two-argument call whose mean uses the post-adjustment count. -/
theorem C1_witness :
    (0 < (applyQCalls (ActionNode.init ⟨[], 0⟩) [QCall.two 3 2]).nParticles_
      ∧ (applyQCalls (ActionNode.init ⟨[], 0⟩) [QCall.two 3 2]).meanQValue_ =
          (applyQCalls (ActionNode.init ⟨[], 0⟩) [QCall.two 3 2]).totalQValue_ /
            ((applyQCalls (ActionNode.init ⟨[], 0⟩) [QCall.two 3 2]).nParticles_ : Rat))
    ∧ ((ActionNode.init ⟨[], 0⟩).updateQValueDelta 3 2).meanQValue_ =
        ((ActionNode.init ⟨[], 0⟩).totalQValue_ + 3) /
          (((ActionNode.init ⟨[], 0⟩).nParticles_ + 2 : Int) : Rat) := by
  constructor
  · refine ⟨by decide, ?_⟩
    exact (C1_meanQValue_consistency.1 ⟨[], 0⟩ [QCall.two 3 2]).1 (by decide)
  · exact ((C1_meanQValue_consistency.2 (ActionNode.init ⟨[], 0⟩) 3 2).2).1 (by decide)

theorem nParticles_applyQCalls (node : ActionNode) (calls : List QCall) :
    (applyQCalls node calls).nParticles_ = node.nParticles_ + sumDeltas calls := by
  induction calls generalizing node with
  | nil => simp [applyQCalls, sumDeltas]
  | cons c rest ih =>
    cases c with
    | one inc =>
      simp [applyQCalls, applyQCall, ActionNode.updateQValue, sumDeltas, ih]
    | two inc d =>
      simp [applyQCalls, applyQCall, ActionNode.updateQValueDelta,
        ActionNode.updateQValue, sumDeltas, ih]
      ring

/-- Counterexample to claim C8 as stated: a single two-argument updateQValue
call with deltaNParticles = -1 on a fresh node drives nParticles_ to -1. -/
theorem C8_counterexample :
    (applyQCalls (ActionNode.init ⟨[], 0⟩) [QCall.two 0 (-1)]).nParticles_ = -1
    ∧ ¬ (0 ≤ (applyQCalls (ActionNode.init ⟨[], 0⟩) [QCall.two 0 (-1)]).nParticles_) := by
  constructor <;> decide

/-- Claim C8 as amended: nParticles_ stays non-negative after every call of a
sequence in which every prefix has a non-negative net deltaNParticles sum;
the two-argument overload applies an unclamped signed adjustment, so an
over-retracting correction can drive the count negative. -/
theorem C8_nParticles_nonneg (calls : List QCall)
    (h : ∀ k, k ≤ calls.length → 0 ≤ sumDeltas (calls.take k)) :
    ∀ (m : ObservationMapping) (k : Nat),
      0 ≤ (applyQCalls (ActionNode.init m) (calls.take k)).nParticles_ := by
  intro m k
  rw [nParticles_applyQCalls]
  have hinit : (ActionNode.init m).nParticles_ = 0 := rfl
  rw [hinit, zero_add]
  rcases le_or_lt k calls.length with hk | hk
  · exact h k hk
  · rw [List.take_of_length_le (le_of_lt hk)]
    have hfull := h calls.length le_rfl
    rwa [List.take_length] at hfull

/-- Witness for C8 as amended: a sequence whose prefix delta sums stay
non-negative keeps a non-negative particle count. -/
theorem C8_witness :
    0 ≤ (applyQCalls (ActionNode.init ⟨[], 0⟩)
      ([QCall.two 1 2, QCall.two 0 (-1)].take 2)).nParticles_ :=
  C8_nParticles_nonneg [QCall.two 1 2, QCall.two 0 (-1)] (by decide) ⟨[], 0⟩ 2

/-- Claim C7: ActionNode::createOrGetChild is an idempotent upsert - a second
call with the same observation returns the same child, reports created =
false, leaves the node unchanged, and the child stays registered under the
observation. -/
theorem C7_createOrGetChild_idempotent (node : ActionNode) (obs : Nat) :
    ((node.createOrGetChild obs).2.createOrGetChild obs).1.1 =
        (node.createOrGetChild obs).1.1
    ∧ ((node.createOrGetChild obs).2.createOrGetChild obs).1.2 = false
    ∧ ((node.createOrGetChild obs).2.createOrGetChild obs).2 =
        (node.createOrGetChild obs).2
    ∧ (node.createOrGetChild obs).2.getChild obs = some (node.createOrGetChild obs).1.1 := by
  cases h : node.getChild obs with
  | some b =>
    simp [ActionNode.createOrGetChild, h]
  | none =>
    have h' : List.lookup obs node.obsMap_.entries = none := h
    simp [ActionNode.createOrGetChild, ActionNode.getChild,
      ObservationMapping.getBelief, ObservationMapping.createBelief, h',
      List.lookup]

/-- Claim C10: the default ActionMapping::update delegates to the entry's own
update when the entry exists, and dereferences a null pointer (embedded as
none) when no entry exists for the action. -/
theorem C10_update_delegates (m : ActionMapping) (a : Nat) (dv : Int) (dq : Rat) :
    (∀ e, m.getEntry a = some e → m.update a dv dq = some (e.update dv dq))
    ∧ (m.getEntry a = none → m.update a dv dq = none) := by
  constructor
  · intro e h
    simp [ActionMapping.update, h]
  · intro h
    simp [ActionMapping.update, h]

/-- A concrete mapping entry for the C10 witness. -/
def e10 : ActionMappingEntry := ⟨fun _ dq => decide (dq ≠ 0)⟩

/-- A concrete mapping for the C10 witness: an entry for action 0 only. -/
def m10 : ActionMapping := ⟨fun a => if a = 0 then some e10 else none⟩

/-- Witness for C10: delegation on a present entry and the null case. -/
theorem C10_witness :
    m10.update 0 1 5 = some (e10.update 1 5) ∧ m10.update 7 1 5 = none := by
  constructor
  · exact (C10_update_delegates m10 0 1 5).1 e10 rfl
  · exact (C10_update_delegates m10 7 1 5).2 rfl

/-- Claim C9: the StagedStepGenerator constructor has no empty-list branch -
an empty factory list dereferences the end iterator (embedded as none) -
and with a non-empty list it eagerly builds the first stage's generator and
leaves the cursor on the second factory. -/
theorem C9_construct_requires_nonempty :
    (∀ (ctx : Nat) (st : SearchStatus),
      StagedStepGenerator.construct [] ctx st = none)
    ∧ (∀ (f : StepGeneratorFactory) (rest : List StepGeneratorFactory)
        (ctx : Nat) (st : SearchStatus),
      StagedStepGenerator.construct (f :: rest) ctx st =
        some ({ remaining := rest, generator_ := some (f ctx st).1 }, (f ctx st).2)) := by
  constructor
  · intro ctx st
    rfl
  · intro f rest ctx st
    rfl

/-- Stage A's single step for the C4 scenario. -/
def stepA : StepResult :=
  { action := some 10, transitionParameters := none, observation := 1,
    reward := 2, nextState := 1, isTerminal := false }

/-- Stage B's first step for the C4 scenario. -/
def stepB : StepResult :=
  { action := some 20, transitionParameters := none, observation := 2,
    reward := 3, nextState := 2, isTerminal := false }

/-- The C4 scenario's stage-B factory: one step, no status change. -/
def facB : StepGeneratorFactory :=
  fun _ st => ({ steps := [stepB], exhaustStatus := none }, st)

/-- Claim C4: for stages [A, B] where A yields one non-null step and then
nulls, the first getStep returns A's step and the second transparently
returns B's first step; in general the loop advances to the next stage only
on a null action with status not FINISHED and stages remaining, and
otherwise clears the active generator and returns the null-action result. -/
theorem C4_staged_stage_switching :
    (StagedStepGenerator.getStep
        { remaining := [facB],
          generator_ := some { steps := [stepA], exhaustStatus := none } }
        0 SearchStatus.INITIAL =
      some (stepA,
        { remaining := [facB],
          generator_ := some { steps := [], exhaustStatus := none } },
        SearchStatus.INITIAL))
    ∧ (StagedStepGenerator.getStep
        { remaining := [facB],
          generator_ := some { steps := [], exhaustStatus := none } }
        0 SearchStatus.INITIAL =
      some (stepB,
        { remaining := [],
          generator_ := some { steps := [], exhaustStatus := none } },
        SearchStatus.INITIAL))
    ∧ (∀ (ctx : Nat) (rem : List StepGeneratorFactory) (r : StepResult)
        (g : StageGen) (st : SearchStatus) (a : Nat), r.action = some a →
      stagedWhile ctx rem r g st = (r, { remaining := rem, generator_ := some g }, st))
    ∧ (∀ (ctx : Nat) (rem : List StepGeneratorFactory) (r : StepResult)
        (g : StageGen), r.action = none →
      stagedWhile ctx rem r g SearchStatus.FINISHED =
        (r, { remaining := rem, generator_ := none }, SearchStatus.FINISHED))
    ∧ (∀ (ctx : Nat) (r : StepResult) (g : StageGen) (st : SearchStatus),
        r.action = none →
      stagedWhile ctx [] r g st = (r, { remaining := [], generator_ := none }, st))
    ∧ (∀ (ctx : Nat) (f : StepGeneratorFactory) (rest : List StepGeneratorFactory)
        (r : StepResult) (g : StageGen) (st : SearchStatus),
        r.action = none → st ≠ SearchStatus.FINISHED →
      stagedWhile ctx (f :: rest) r g st =
        stagedWhile ctx rest ((f ctx st).1.step (f ctx st).2).1
          ((f ctx st).1.step (f ctx st).2).2.1 ((f ctx st).1.step (f ctx st).2).2.2) := by
  refine ⟨rfl, rfl, ?_, ?_, ?_, ?_⟩
  · intro ctx rem r g st a h
    obtain ⟨act, tp, obs, rew, ns, it⟩ := r
    subst h
    cases rem with
    | nil => rfl
    | cons f rest => rfl
  · intro ctx rem r g h
    obtain ⟨act, tp, obs, rew, ns, it⟩ := r
    subst h
    cases rem with
    | nil => rfl
    | cons f rest => rfl
  · intro ctx r g st h
    obtain ⟨act, tp, obs, rew, ns, it⟩ := r
    subst h
    cases st <;> rfl
  · intro ctx f rest r g st h hst
    obtain ⟨act, tp, obs, rew, ns, it⟩ := r
    subst h
    cases st <;> first | rfl | exact absurd rfl hst

/-- Witness for C4: clearing the active generator on a null action when the
status is FINISHED, at a concrete input. -/
theorem C4_witness :
    stagedWhile 0 [facB] nullStepResult { steps := [], exhaustStatus := none }
        SearchStatus.FINISHED =
      (nullStepResult, { remaining := [facB], generator_ := none },
        SearchStatus.FINISHED) :=
  C4_staged_stage_switching.2.2.2.1 0 [facB] nullStepResult
    { steps := [], exhaustStatus := none } rfl

theorem extendLoop_cutoff {G : Type} (strat : Strategy G) (maxD : Int) (fuel : Nat)
    (s : LoopState G)
    (h : maxD ≤ (s.env.tree.getDepth s.currentNode : Int)) :
    extendLoop strat maxD (fuel + 1) s =
      postLoop strat { s with status := SearchStatus.OUT_OF_STEPS } := by
  simp [extendLoop, loopIter, h]

/-- The heuristic value extendSequence computes at the frontier. -/
def frontierHeuristic {G : Type} (strat : Strategy G) (env : Env)
    (frontier : HistoryEntry) : Rat :=
  strat.heuristic frontier frontier.stateId (env.dataFn frontier.beliefNode)

/-- Claim C2: when the frontier belief's depth equals maximumDepth (frontier
state not terminal, no action on the frontier entry, generator construction
succeeding), extendSequence returns FINISHED after exactly one heuristic
evaluation, stores the heuristic value as the frontier entry's immediate
reward, and makes exactly one value-only updateEstimate (visit delta 0,
reward delta the heuristic value) on the frontier belief - and nothing
else: the environment and the rest of the sequence are untouched. -/
theorem C2_depth_cutoff_heuristic {G : Type} (strat : Strategy G) (env : Env)
    (seqInit : List HistoryEntry) (frontier : HistoryEntry) (maximumDepth : Int)
    (hdepth : (env.tree.getDepth frontier.beliefNode : Int) = maximumDepth)
    (hterm : env.isTerminal frontier.stateId = false)
    (hact : frontier.action = none)
    (hinit : (strat.createGenerator SearchStatus.UNINITIALIZED frontier
        frontier.stateId (env.dataFn frontier.beliefNode)).2 ≠ SearchStatus.UNINITIALIZED) :
    extendSequence strat env seqInit frontier maximumDepth =
      (SearchStatus.FINISHED, env,
       seqInit ++ [{ frontier with immediateReward := frontierHeuristic strat env frontier }],
       [UpdateEvent.heuristicEval frontier.beliefNode (frontierHeuristic strat env frontier),
        UpdateEvent.estimate frontier.beliefNode (frontierHeuristic strat env frontier) 0]) := by
  have hfuel : (maximumDepth - (env.tree.getDepth frontier.beliefNode : Int)).toNat + 1 = 1 := by
    rw [← hdepth]
    simp
  simp only [extendSequence, hinit, hterm, hact, hfuel]
  rw [extendLoop_cutoff]
  · simp [postLoop, frontierHeuristic, hact]
  · exact le_of_eq hdepth.symm

/-- Claim C5: continuing from a terminal frontier state, or from a frontier
entry that already carries an action, returns ERROR and mutates nothing:
the environment (tree and pool), the sequence and the update log are exactly
as before. -/
theorem C5_precondition_error {G : Type} (strat : Strategy G) (env : Env)
    (seqInit : List HistoryEntry) (frontier : HistoryEntry) (maxD : Int)
    (hinit : (strat.createGenerator SearchStatus.UNINITIALIZED frontier
        frontier.stateId (env.dataFn frontier.beliefNode)).2 ≠ SearchStatus.UNINITIALIZED) :
    (env.isTerminal frontier.stateId = true →
      extendSequence strat env seqInit frontier maxD =
        (SearchStatus.ERROR, env, seqInit ++ [frontier], []))
    ∧ (frontier.action.isSome = true →
      extendSequence strat env seqInit frontier maxD =
        (SearchStatus.ERROR, env, seqInit ++ [frontier], [])) := by
  constructor
  · intro ht
    simp [extendSequence, hinit, ht]
  · intro ha
    by_cases ht : env.isTerminal frontier.stateId <;>
      simp [extendSequence, hinit, ht, ha]

/-- Claim C6: when, at any point of the loop below the depth cutoff, the
step generator returns a null-action result having marked the shared status
FINISHED (the spec's status machine for natural step-exhaustion), the loop
terminates by fallthrough and the call resolves to FINISHED with no further
mutation of the environment, sequence or update log. -/
theorem C6_exhaustion_finished {G : Type} (strat : Strategy G) (maxD : Int)
    (fuel : Nat) (s : LoopState G) (r : StepResult) (g2 : G)
    (hdepth : (s.env.tree.getDepth s.currentNode : Int) < maxD)
    (hstep : strat.getStep s.gen s.currentEntry s.currentEntry.stateId
        (s.env.dataFn s.currentNode) s.status = (r, g2, SearchStatus.FINISHED))
    (hnull : r.action = none) :
    extendLoop strat maxD (fuel + 1) s =
      { s with gen := g2, status := SearchStatus.FINISHED } := by
  have hle : ¬ maxD ≤ (s.env.tree.getDepth s.currentNode : Int) := not_le.mpr hdepth
  simp [extendLoop, loopIter, hle, hstep, hnull, postLoop]

/-- Claim C3 as amended: within one extendSequence call, no continuation
credit is charged on the first successful step, and on every subsequent
successful step a continuation statistic with deltaNVisits = +1 and
deltaTotalQ = 0 (a pure visit-count bump, updateEstimate(node, 0, +1)) is
credited to the current belief node before the reward-bearing
updateImmediate of that step and before advancing to the child belief. -/
theorem C3_continuation_credit {G : Type} (strat : Strategy G) (maxD : Int)
    (s : LoopState G) (r : StepResult) (g2 : G) (st2 : SearchStatus) (a : Nat)
    (hdepth : (s.env.tree.getDepth s.currentNode : Int) < maxD)
    (hstep : strat.getStep s.gen s.currentEntry s.currentEntry.stateId
        (s.env.dataFn s.currentNode) s.status = (r, g2, st2))
    (hact : r.action = some a) :
    (loopIter strat maxD s).state.events =
      s.events ++ (if s.isFirst then [] else [UpdateEvent.estimate s.currentNode 0 1])
        ++ [UpdateEvent.immediate s.currentNode a r.observation r.reward 1]
    ∧ (loopIter strat maxD s).state.currentNode =
        (s.env.tree.createOrGetChild s.currentNode a r.observation).1
    ∧ (loopIter strat maxD s).state.isFirst = false := by
  have hle : ¬ maxD ≤ (s.env.tree.getDepth s.currentNode : Int) := not_le.mpr hdepth
  cases hT : r.isTerminal <;>
    simp [loopIter, hle, hstep, hact, IterResult.state, hT]

/-- A strategy whose generator always declines, for concrete runs. -/
def stratNull : Strategy Unit :=
  { createGenerator := fun _ _ _ _ => ((), SearchStatus.INITIAL),
    getStep := fun g _ _ _ st => (nullStepResult, g, st),
    heuristic := fun _ _ _ => 7 }

/-- A strategy whose generator declines and marks FINISHED, for concrete
runs. -/
def stratFinish : Strategy Unit :=
  { createGenerator := fun _ _ _ _ => ((), SearchStatus.INITIAL),
    getStep := fun g _ _ _ _ => (nullStepResult, g, SearchStatus.FINISHED),
    heuristic := fun _ _ _ => 7 }

/-- A strategy whose generator always yields action 5, observation 3,
reward 1 and the successor state, for concrete runs. -/
def stratStep : Strategy Unit :=
  { createGenerator := fun _ _ _ _ => ((), SearchStatus.INITIAL),
    getStep := fun g _ sId _ st =>
      ({ action := some 5, transitionParameters := none, observation := 3,
         reward := 1, nextState := sId + 1, isTerminal := false }, g, st),
    heuristic := fun _ _ _ => 9 }

/-- A concrete environment: belief node 0 at depth 0, no terminal states. -/
def envDepth0 : Env :=
  { isTerminal := fun _ => false, dataFn := fun _ => 0,
    tree := { nextId := 1, nodes := [(0, 0)], edges := [] }, pool := [] }

/-- A concrete environment in which every state is terminal. -/
def envTerminal : Env :=
  { isTerminal := fun _ => true, dataFn := fun _ => 0,
    tree := { nextId := 1, nodes := [(0, 0)], edges := [] }, pool := [] }

/-- A fresh frontier entry at state 0, registered to belief node 0. -/
def frontier0 : HistoryEntry :=
  { stateId := 0, action := none, observation := none,
    transitionParameters := none, immediateReward := 0, beliefNode := 0 }

/-- A frontier entry that already carries an action. -/
def frontierActed : HistoryEntry :=
  { stateId := 0, action := some 4, observation := none,
    transitionParameters := none, immediateReward := 0, beliefNode := 0 }

/-- Witness for C2: a concrete depth-cutoff call. -/
theorem C2_witness :
    extendSequence stratNull envDepth0 [] frontier0 0 =
      (SearchStatus.FINISHED, envDepth0,
       [] ++ [{ frontier0 with immediateReward := frontierHeuristic stratNull envDepth0 frontier0 }],
       [UpdateEvent.heuristicEval frontier0.beliefNode (frontierHeuristic stratNull envDepth0 frontier0),
        UpdateEvent.estimate frontier0.beliefNode (frontierHeuristic stratNull envDepth0 frontier0) 0]) :=
  C2_depth_cutoff_heuristic stratNull envDepth0 [] frontier0 0 (by decide) rfl rfl (by decide)

/-- Witness for C5: a terminal-state continuation and a double-action
attempt, each returning ERROR with nothing mutated. -/
theorem C5_witness :
    extendSequence stratNull envTerminal [] frontier0 5 =
      (SearchStatus.ERROR, envTerminal, [] ++ [frontier0], [])
    ∧ extendSequence stratNull envDepth0 [] frontierActed 5 =
      (SearchStatus.ERROR, envDepth0, [] ++ [frontierActed], []) := by
  constructor
  · exact (C5_precondition_error stratNull envTerminal [] frontier0 5 (by decide)).1 rfl
  · exact (C5_precondition_error stratNull envDepth0 [] frontierActed 5 (by decide)).2 rfl

/-- A loop state at belief node 0, one iteration in (isFirst already
false), for the C3 witness. -/
def s3 : LoopState Unit :=
  { env := envDepth0, pastEntries := [], currentEntry := frontier0,
    currentNode := 0, gen := (), status := SearchStatus.INITIAL,
    isFirst := false, events := [] }

/-- The concrete step stratStep yields from state 0. -/
def stepC3 : StepResult :=
  { action := some 5, transitionParameters := none, observation := 3,
    reward := 1, nextState := 1, isTerminal := false }

/-- Witness for C3 as amended: a subsequent successful step credits
updateEstimate(node, 0, +1) to the current belief before its
updateImmediate. -/
theorem C3_witness :
    (loopIter stratStep 2 s3).state.events =
      s3.events ++ (if s3.isFirst then [] else [UpdateEvent.estimate s3.currentNode 0 1])
        ++ [UpdateEvent.immediate s3.currentNode 5 stepC3.observation stepC3.reward 1]
    ∧ (loopIter stratStep 2 s3).state.currentNode =
        (s3.env.tree.createOrGetChild s3.currentNode 5 stepC3.observation).1
    ∧ (loopIter stratStep 2 s3).state.isFirst = false :=
  C3_continuation_credit stratStep 2 s3 stepC3 () SearchStatus.INITIAL 5
    (by decide) rfl rfl

/-- Counterexample to claim C3 as stated: in a concrete two-step run the
continuation credit on the second step is updateEstimate(belief 1, reward
delta 0, visit delta +1); no updateEstimate with reward delta +1 and visit
delta 0 (the claimed deltas) is ever issued to it. -/
theorem C3_counterexample :
    (extendSequence stratStep envDepth0 [] frontier0 2).2.2.2 =
      [UpdateEvent.immediate 0 5 3 1 1,
       UpdateEvent.estimate 1 0 1,
       UpdateEvent.immediate 1 5 3 1 1,
       UpdateEvent.heuristicEval 2 9,
       UpdateEvent.estimate 2 9 0]
    ∧ ¬ (UpdateEvent.estimate 1 1 0 ∈ (extendSequence stratStep envDepth0 [] frontier0 2).2.2.2) := by
  constructor <;> decide

/-- A loop state at belief node 0 for the C6 witness. -/
def s6 : LoopState Unit :=
  { env := envDepth0, pastEntries := [], currentEntry := frontier0,
    currentNode := 0, gen := (), status := SearchStatus.INITIAL,
    isFirst := true, events := [] }

/-- Witness for C6: a concrete exhaustion below the cutoff resolves to
FINISHED and changes nothing else. -/
theorem C6_witness :
    extendLoop stratFinish 1 1 s6 = { s6 with gen := (), status := SearchStatus.FINISHED } :=
  C6_exhaustion_finished stratFinish 1 0 s6 nullStepResult () (by decide) rfl rfl
